import Mathlib

/-!
Shallow embedding of the Transformer implementation in `src/model.py` and
`src/train.py`, together with theorems settling the frozen claims about it.

Tensors are modelled as lists of rows of real numbers; a single (batch, head)
slice of a 4-D attention tensor is modelled as a 2-D matrix, since every
operation the claims mention acts independently on such slices.  Python
runtime failures (attribute errors, type errors, positional-argument
mismatches) are modelled with `Except String`.
-/

/-! ### List/matrix helpers -/

/-- Dot product of two equal-length vectors. -/
def dot (a b : List ℝ) : ℝ := (List.zipWith (fun x y => x * y) a b).sum

/-- Elementwise matrix addition (used for `x + pe` in positional encoding). -/
def matAdd (A B : List (List ℝ)) : List (List ℝ) :=
  List.zipWith (List.zipWith (fun x y => x + y)) A B

/-- `A @ B` where `A : (n, m)` and `B : (m, p)`, both as lists of rows. -/
def matmul (A B : List (List ℝ)) : List (List ℝ) :=
  A.map fun row =>
    (List.range ((B.headD []).length)).map fun c =>
      (List.zipWith (fun a brow => a * List.getD brow c 0) row B).sum

/-- `torch.Tensor.masked_fill(mask == 0, v)`: a pure, out-of-place operation
returning a new tensor with value `v` wherever the mask entry is `0`. -/
def masked_fill (scores : List (List ℝ)) (mask : List (List ℕ)) (v : ℝ) : List (List ℝ) :=
  List.zipWith (fun srow mrow => List.zipWith (fun s m => if m = 0 then v else s) srow mrow)
    scores mask

/-- Softmax of one row: `exp xᵢ / Σⱼ exp xⱼ`. -/
noncomputable def softmaxRow (r : List ℝ) : List ℝ :=
  r.map fun x => Real.exp x / (r.map Real.exp).sum

/-- `softmax(dim = -1)` on a matrix: row-wise softmax. -/
noncomputable def softmaxRows (m : List (List ℝ)) : List (List ℝ) :=
  m.map softmaxRow

/-! ### MultiHeadAttentionBlock (src/model.py lines 90-132) -/

/-- Configuration state produced by `MultiHeadAttentionBlock.__init__`. -/
structure MultiHeadAttentionBlockCfg where
  d_model : ℕ
  h : ℕ
  d_k : ℕ
deriving DecidableEq, Repr

/-- `MultiHeadAttentionBlock.__init__` (lines 92-98): asserts
`d_model % h == 0` (an `AssertionError` at construction time otherwise) and
derives `d_k = d_model // h`. -/
def MultiHeadAttentionBlock.init (d_model h : ℕ) : Except String MultiHeadAttentionBlockCfg :=
  if d_model % h = 0 then
    Except.ok ⟨d_model, h, d_model / h⟩
  else
    Except.error "AssertionError: d_model is not divisible by h"

/-- `MultiHeadAttentionBlock.attention` (lines 106-116), on one (batch, head)
slice.  Faithful to the source: the scores are `Q Kᵀ / sqrt d_k` with
`d_k = query.shape[-1]`; the `masked_fill` call on line 112 is out-of-place
and its result is never assigned, so the unmasked scores flow into the
softmax; dropout, when supplied, is applied to the softmaxed weights, and the
(post-dropout) weights are returned alongside `weights @ value`. -/
noncomputable def MultiHeadAttentionBlock.attention (query key value : List (List ℝ))
    (mask : Option (List (List ℕ)))
    (dropout : Option (List (List ℝ) → List (List ℝ))) :
    List (List ℝ) × List (List ℝ) :=
  let d_k : ℕ := (query.headD []).length
  let attention_scores :=
    query.map fun qi => key.map fun kj => dot qi kj / Real.sqrt d_k
  let _discarded :=
    match mask with
    | some m => masked_fill attention_scores m (-1e9)
    | none => attention_scores
  let attention_scores := softmaxRows attention_scores
  let attention_scores :=
    match dropout with
    | some d => d attention_scores
    | none => attention_scores
  (matmul attention_scores value, attention_scores)

/-- Mutable per-instance state of a `MultiHeadAttentionBlock`: the four
projection maps and the dropout are the (learnable / fixed) parameters set at
construction; `attention_scores` is the extra instance attribute that
`forward` assigns on line 128. -/
structure MultiHeadAttentionBlockState where
  w_q : List (List ℝ) → List (List ℝ)
  w_k : List (List ℝ) → List (List ℝ)
  w_v : List (List ℝ) → List (List ℝ)
  w_o : List (List ℝ) → List (List ℝ)
  dropout : Option (List (List ℝ) → List (List ℝ))
  attention_scores : Option (List (List ℝ))

/-- `MultiHeadAttentionBlock.forward` (lines 118-132), modelled on a single
batch element with `h = 1`, where the `view`/`transpose` reshaping into heads
is the identity on the `(seq_len, d_model)` slice.  The essential effect kept
from the source is line 128: the weights returned by `attention` are assigned
to the instance attribute `self.attention_scores`, so `forward` returns both
the output tensor and the updated instance state. -/
noncomputable def MultiHeadAttentionBlock.forward (self : MultiHeadAttentionBlockState)
    (q k v : List (List ℝ)) (mask : Option (List (List ℕ))) :
    List (List ℝ) × MultiHeadAttentionBlockState :=
  let query := self.w_q q
  let key := self.w_k k
  let value := self.w_v v
  let res := MultiHeadAttentionBlock.attention query key value mask self.dropout
  (self.w_o res.1, { self with attention_scores := some res.2 })

/-- An attention block state with identity projections, no dropout, and no
`attention_scores` attribute set yet (fresh instance). -/
def mhaFresh : MultiHeadAttentionBlockState :=
  { w_q := id, w_k := id, w_v := id, w_o := id, dropout := none, attention_scores := none }

/-! ### LayerNormalization (src/model.py lines 53-76) -/

/-- Python attribute lookup on an object modelled as an attribute dictionary:
a missing attribute raises `AttributeError`. -/
def pyGetAttr (self : List (String × ℝ)) (name : String) : Except String ℝ :=
  match self.lookup name with
  | some v => Except.ok v
  | none => Except.error ("AttributeError: " ++ name)

/-- `LayerNormalization.__init__` (lines 55-59): sets the attributes `eps`,
`alpha` (initialized to ones) and `beta` (initialized to zeros).  The scalar
parameters `torch.ones(1)` / `torch.zeros(1)` are modelled by their values. -/
def LayerNormalization.init (eps : ℝ) : List (String × ℝ) :=
  [("eps", eps), ("alpha", 1), ("beta", 0)]

/-- Per-token mean over the last dimension. -/
noncomputable def listMean (x : List ℝ) : ℝ := x.sum / x.length

/-- Per-token standard deviation over the last dimension (`torch.std`,
unbiased: the sum of squared deviations divided by `n - 1`). -/
noncomputable def listStd (x : List ℝ) : ℝ :=
  Real.sqrt ((x.map fun xi => (xi - listMean x) ^ 2).sum / ((x.length : ℝ) - 1))

/-- `LayerNormalization.forward` (lines 61-76) on one token vector: computes
the mean and standard deviation, then reads the attributes `alpha`, `bias`
and `eps` (the source accesses `self.bias` on lines 73-74) and returns
`alpha * (x - mean) / (std + eps) + bias`.  Attribute reads go through
`pyGetAttr`, so reading an attribute the constructor never set raises
`AttributeError`. -/
noncomputable def LayerNormalization.forward (self : List (String × ℝ)) (x : List ℝ) :
    Except String (List ℝ) := do
  let mean := listMean x
  let std := listStd x
  let alpha ← pyGetAttr self "alpha"
  let bias ← pyGetAttr self "bias"
  let eps ← pyGetAttr self "eps"
  Except.ok (x.map fun xi => alpha * (xi - mean) / (std + eps) + bias)

/-! ### PositionalEncoding (src/model.py lines 17-39) -/

/-- `div_term` (line 28): entry `i` is
`exp((2 i) * (-log 10000 / d_model))`. -/
noncomputable def PositionalEncoding.div_term (d_model i : ℕ) : ℝ :=
  Real.exp (((2 * i : ℕ) : ℝ) * (-Real.log 10000 / (d_model : ℝ)))

/-- The positional table `pe` built in `PositionalEncoding.__init__`
(lines 25-32): entry at position `p` and feature index `j` is
`sin(p * div_term (j / 2))` for even `j` (line 31) and
`cos(p * div_term (j / 2))` for odd `j` (line 32). -/
noncomputable def PositionalEncoding.pe (d_model seq_len p j : ℕ) : ℝ :=
  if j % 2 = 0 then Real.sin ((p : ℝ) * PositionalEncoding.div_term d_model (j / 2))
  else Real.cos ((p : ℝ) * PositionalEncoding.div_term d_model (j / 2))

/-- The registered buffer `self.pe` together with its `requires_grad` flag
(a `Bool`-valued tensor attribute).  The batch dimension of size 1 is left
implicit: `data` is the `(seq_len, d_model)` slice. -/
structure PosEncBuffer where
  data : List (List ℝ)
  requires_grad : Bool

/-- Python call applied to a `Bool` value: `requires_grad` is a boolean
attribute, not a method, and booleans are not callable, so the call raises
`TypeError` (the in-place method would be `requires_grad_`). -/
def pyCallBool (b arg : Bool) : Except String PosEncBuffer :=
  Except.error "TypeError: bool object is not callable"

/-- `PositionalEncoding.forward` (lines 37-39): slices the first `x.shape[1]`
rows of the table, evaluates `(...).requires_grad(False)` — a call on the
boolean attribute, line 38 — then would add the slice to the input and apply
dropout. -/
def PositionalEncoding.forward (pe : PosEncBuffer)
    (dropout : List (List ℝ) → List (List ℝ)) (x : List (List ℝ)) :
    Except String (List (List ℝ)) := do
  let sliced : PosEncBuffer := ⟨pe.data.take x.length, pe.requires_grad⟩
  let graded ← pyCallBool sliced.requires_grad false
  Except.ok (dropout (matAdd x graded.data))

/-! ### Call arities of decode (src/model.py lines 194-197 and 227-230,
src/train.py line 37) -/

/-- Binding of positional call arguments to declared parameters: Python
raises `TypeError` when the counts differ. -/
def pyBindArgs (params args : List String) : Except String (List (String × String)) :=
  if args.length = params.length then Except.ok (params.zip args)
  else Except.error "TypeError: positional argument count mismatch"

/-- Parameters of `Decoder.forward` (line 194), excluding `self`. -/
def Decoder.forwardParams : List String :=
  ["x", "encoder_output", "src_mask", "tgt_mask"]

/-- Parameters of `Transformer.decode` (line 227), excluding `self`. -/
def Transformer.decodeParams : List String :=
  ["encoder_output", "src", "tgt", "src_mask", "tgt_mask"]

/-- The positional arguments `Transformer.decode` passes to `self.decoder`
(line 230), which dispatches to `Decoder.forward`. -/
def Transformer.decoderCallArgs : List String :=
  ["encoder_output", "src", "tgt", "src_mask", "tgt_mask"]

/-- The positional arguments `greedy_decode` passes to `model.decode`
(src/train.py line 37). -/
def greedyDecodeDecodeArgs : List String :=
  ["encoder_output", "source_mask", "decoder_input", "decoder_mask"]

/-! ### greedy_decode (src/train.py lines 21-48) -/

/-- One execution of the `while True:` loop of `greedy_decode`, with the
model step (decode, project, arg-max) abstracted as `nextWord`, a function of
the current target prefix.  Each unit of fuel is one loop iteration; `none`
means the loop did not finish within the given number of iterations.  The
body is faithful to the source: break when the current length equals
`maxLen`; otherwise append the next token and break if it is `eos`. -/
def greedyStep (nextWord : List ℕ → ℕ) (eos maxLen : ℕ) : ℕ → List ℕ → Option (List ℕ)
  | 0, _ => none
  | fuel + 1, cur =>
    if cur.length = maxLen then some cur
    else
      let next := nextWord cur
      if next = eos then some (cur ++ [next])
      else greedyStep nextWord eos maxLen fuel (cur ++ [next])

/-- `greedy_decode` (lines 21-48): start from the single start-of-sequence
token and run the loop, giving it `maxLen` iterations of fuel — a `some`
result states that the loop terminated within `maxLen` iterations. -/
def greedy_decode (nextWord : List ℕ → ℕ) (sos eos maxLen : ℕ) : Option (List ℕ) :=
  greedyStep nextWord eos maxLen maxLen [sos]

/-! ### Claim theorems -/

/-- Claim C7: for every pair of positive integers `(d_model, h)`, constructing
a `MultiHeadAttentionBlock` fails exactly when `d_model % h != 0`; when
construction succeeds the derived per-head dimension satisfies
`d_k = d_model / h` (with `h = h` and `d_model = d_model` recorded). -/
theorem mha_init_validates_divisibility (d_model h : ℕ)
    (hd : 0 < d_model) (hh : 0 < h) :
    (d_model % h = 0 →
      MultiHeadAttentionBlock.init d_model h = Except.ok ⟨d_model, h, d_model / h⟩)
    ∧ (d_model % h ≠ 0 →
      MultiHeadAttentionBlock.init d_model h
        = Except.error "AssertionError: d_model is not divisible by h") := by
  constructor
  · intro hmod
    simp [MultiHeadAttentionBlock.init, hmod]
  · intro hmod
    simp [MultiHeadAttentionBlock.init, hmod]

/-- Witness for C7 at `d_model = 8`, `h = 2`: construction succeeds and
derives `d_k = 4`. -/
theorem mha_init_validates_divisibility_witness :
    MultiHeadAttentionBlock.init 8 2 = Except.ok ⟨8, 2, 4⟩ :=
  (mha_init_validates_divisibility 8 2 (by decide) (by decide)).1 (by decide)

/-- Claim C3 (code bug): the call `model.decode(encoder_output, source_mask,
decoder_input, decoder_mask)` in `greedy_decode` supplies 4 positional
arguments to `Transformer.decode`, which declares 5 parameters, and the body
of `Transformer.decode` passes 5 positional arguments to `Decoder.forward`,
which declares 4 — both calls raise `TypeError`, so the decode operation never
runs as the claim requires. -/
theorem decode_call_arity_mismatch :
    pyBindArgs Transformer.decodeParams greedyDecodeDecodeArgs
        = Except.error "TypeError: positional argument count mismatch"
    ∧ pyBindArgs Decoder.forwardParams Transformer.decoderCallArgs
        = Except.error "TypeError: positional argument count mismatch" :=
  ⟨rfl, rfl⟩

/-- Claim C2 (code bug): for every `eps` and every input vector, the forward
pass of `LayerNormalization` raises `AttributeError`, because the constructor
defines the additive parameter under the name `beta` while `forward` reads
`self.bias`; the normalization result the claim describes is never
returned. -/
theorem layer_norm_forward_attribute_error (eps : ℝ) (x : List ℝ) :
    LayerNormalization.forward (LayerNormalization.init eps) x
      = Except.error "AttributeError: bias" := rfl

/-- Claim C4 (code bug): for every table buffer, dropout and input, the
forward pass of `PositionalEncoding` raises `TypeError`, because line 38
calls the boolean attribute `requires_grad` as if it were a method; the call
never completes and never returns `dropout (x + pe)`. -/
theorem positional_encoding_forward_type_error (pe : PosEncBuffer)
    (dropout : List (List ℝ) → List (List ℝ)) (x : List (List ℝ)) :
    PositionalEncoding.forward pe dropout x
      = Except.error "TypeError: bool object is not callable" := rfl

/-- Sum of a list divided elementwise by a constant. -/
lemma list_sum_map_div (l : List ℝ) (c : ℝ) : (l.map fun x => x / c).sum = l.sum / c := by
  induction l with
  | nil => simp
  | cons a t ih => simp [ih, add_div]

/-- The softmax of a nonempty row sums to 1. -/
lemma softmaxRow_sum (r : List ℝ) (h : r ≠ []) : (softmaxRow r).sum = 1 := by
  have hpos : 0 < (r.map Real.exp).sum := by
    cases r with
    | nil => exact absurd rfl h
    | cons a t =>
      have ht : 0 ≤ (t.map Real.exp).sum :=
        List.sum_nonneg (fun x hx => by
          obtain ⟨y, hy, rfl⟩ := List.mem_map.1 hx
          exact (Real.exp_pos y).le)
      simpa using add_pos_of_pos_of_nonneg (Real.exp_pos a) ht
  have hS : (r.map Real.exp).sum ≠ 0 := ne_of_gt hpos
  have hrw : softmaxRow r = (r.map Real.exp).map fun y => y / (r.map Real.exp).sum := by
    rw [softmaxRow, List.map_map]
    exact List.map_congr_left fun x _ => rfl
  rw [hrw, list_sum_map_div, div_self hS]

/-- The weight tensor returned by `attention` is the row-wise softmax of the
raw (unmasked) scores, whatever mask is passed, when dropout is `none`. -/
lemma attention_snd (Q K V : List (List ℝ)) (mask : Option (List (List ℕ))) :
    (MultiHeadAttentionBlock.attention Q K V mask none).2
      = softmaxRows (Q.map fun qi => K.map fun kj =>
          dot qi kj / Real.sqrt ((Q.headD []).length)) := by
  cases mask <;> rfl

/-- Claim C1 (code bug): the `masked_fill` result on line 112 is discarded,
so attention with a mask equals attention without one; concretely, with one
query, two keys and the mask `[[1, 0]]` disallowing the second key, the
post-softmax weight at the masked key position is `1/2`, far above any small
tolerance — the replaced score tensor is not the one fed to softmax. -/
theorem masked_fill_is_discarded :
    (∀ Q K V m d, MultiHeadAttentionBlock.attention Q K V (some m) d
        = MultiHeadAttentionBlock.attention Q K V none d)
    ∧ (MultiHeadAttentionBlock.attention [[0]] [[0], [0]] [[1], [2]]
        (some [[1, 0]]) none).2 = [[1/2, 1/2]]
    ∧ ¬ ((1 : ℝ)/2 ≤ 1e-6) := by
  refine ⟨fun Q K V m d => rfl, ?_, by norm_num⟩
  simp [MultiHeadAttentionBlock.attention, softmaxRows, softmaxRow, dot, Real.sqrt_one,
    Real.exp_zero]
  norm_num

/-- Claim C5 (amended): for every attention call in which no dropout is
applied (dropout `None`, as at inference) and there is at least one key
position, the returned attention-weight tensor sums to 1 along the key
dimension for every query position, with or without a mask. -/
theorem attention_weights_sum_one (Q K V : List (List ℝ)) (mask : Option (List (List ℕ)))
    (hK : K ≠ []) :
    ((MultiHeadAttentionBlock.attention Q K V mask none).2).map List.sum
      = List.replicate Q.length 1 := by
  rw [attention_snd, softmaxRows, List.map_map, List.map_map]
  have hone : ∀ qi : List ℝ,
      (List.sum ∘ softmaxRow ∘ fun qi => K.map fun kj =>
        dot qi kj / Real.sqrt ((Q.headD []).length)) qi = (1 : ℝ) := by
    intro qi
    exact softmaxRow_sum _ (fun hc => hK (List.map_eq_nil_iff.1 hc))
  calc Q.map (List.sum ∘ softmaxRow ∘ fun qi => K.map fun kj =>
        dot qi kj / Real.sqrt ((Q.headD []).length))
      = Q.map fun _ => (1:ℝ) := List.map_congr_left fun qi _ => hone qi
    _ = List.replicate Q.length 1 := by
        induction Q with
        | nil => simp
        | cons a t ih => simp [ih, List.replicate_succ]

/-- Witness for C5: one query over two keys, no mask, no dropout — the single
weight row sums to 1. -/
theorem attention_weights_sum_one_witness :
    ((MultiHeadAttentionBlock.attention [[0]] [[0], [0]] [[1], [2]] none none).2).map List.sum
      = List.replicate 1 1 :=
  attention_weights_sum_one [[0]] [[0], [0]] [[1], [2]] none (by simp)

/-- Counterexample to C5 as stated: in training mode the returned weights are
the post-dropout weights.  With an `nn.Dropout(0.5)` draw that keeps every
entry (each kept entry is scaled by `1/(1-0.5) = 2`), the weight row of a
one-query, two-key call sums to 2, not 1. -/
theorem attention_weights_dropout_counterexample :
    ((MultiHeadAttentionBlock.attention [[0]] [[0], [0]] [[1], [2]] none
        (some fun w => w.map (List.map fun x => 2 * x))).2).map List.sum = [(2:ℝ)]
    ∧ (2:ℝ) ≠ 1 := by
  constructor
  · simp [MultiHeadAttentionBlock.attention, softmaxRows, softmaxRow, dot, Real.sqrt_one,
      Real.exp_zero]
    norm_num
  · norm_num

/-- Claim C6 (code bug): every call of `MultiHeadAttentionBlock.forward`
assigns the attention weights to the instance attribute `attention_scores`
(line 128), so the weights are not delivered only as a return value of the
attention routine; in particular a fresh instance is mutated by `forward`. -/
theorem attention_scores_stored_on_instance :
    (∀ self q k v mask, ((MultiHeadAttentionBlock.forward self q k v mask).2).attention_scores
      = some ((MultiHeadAttentionBlock.attention (self.w_q q) (self.w_k k) (self.w_v v)
          mask self.dropout).2))
    ∧ (MultiHeadAttentionBlock.forward mhaFresh [[0]] [[0], [0]] [[1], [2]] none).2
        ≠ mhaFresh := by
  refine ⟨fun self q k v mask => rfl, fun hcontra => ?_⟩
  have h := congrArg MultiHeadAttentionBlockState.attention_scores hcontra
  simp [MultiHeadAttentionBlock.forward, mhaFresh] at h

/-- The source's `div_term` equals the reciprocal of `10000 ^ (2i / d_model)`
(real exponentiation). -/
lemma div_term_eq_rpow (d_model i : ℕ) :
    PositionalEncoding.div_term d_model i
      = ((10000 : ℝ) ^ (((2 * i : ℕ) : ℝ) / (d_model : ℝ)))⁻¹ := by
  rw [PositionalEncoding.div_term,
    Real.rpow_def_of_pos (by norm_num : (0:ℝ) < 10000), ← Real.exp_neg]
  congr 1
  ring

/-- Claim C9: for every configuration, the positional table entry at position
`p` and even feature index `2i` is `sin(p / 10000^(2i/d_model))`, and at odd
index `2i+1` it is `cos(p / 10000^(2i/d_model))`; the table depends on the
configuration alone. -/
theorem positional_table_entry_formula (d_model seq_len p i : ℕ)
    (hd : 0 < d_model) (hp : p < seq_len) (hodd : 2 * i + 1 < d_model) :
    PositionalEncoding.pe d_model seq_len p (2 * i)
        = Real.sin ((p : ℝ) / (10000 : ℝ) ^ (((2 * i : ℕ) : ℝ) / (d_model : ℝ)))
    ∧ PositionalEncoding.pe d_model seq_len p (2 * i + 1)
        = Real.cos ((p : ℝ) / (10000 : ℝ) ^ (((2 * i : ℕ) : ℝ) / (d_model : ℝ))) := by
  constructor
  · rw [PositionalEncoding.pe]
    simp only [Nat.mul_mod_right, if_true, Nat.mul_div_cancel_left i (by norm_num : 0 < 2)]
    rw [div_term_eq_rpow]
    congr 1
  · rw [PositionalEncoding.pe]
    have h1 : (2 * i + 1) % 2 = 1 := by omega
    have h2 : (2 * i + 1) / 2 = i := by omega
    rw [h1, h2]
    simp only [one_ne_zero, if_false]
    rw [div_term_eq_rpow]
    congr 1

/-- Witness for C9 at `d_model = 2`, `seq_len = 1`, `p = 0`, `i = 0`. -/
theorem positional_table_entry_formula_witness :
    PositionalEncoding.pe 2 1 0 (2 * 0)
        = Real.sin (((0 : ℕ) : ℝ) / (10000 : ℝ) ^ (((2 * 0 : ℕ) : ℝ) / ((2 : ℕ) : ℝ)))
    ∧ PositionalEncoding.pe 2 1 0 (2 * 0 + 1)
        = Real.cos (((0 : ℕ) : ℝ) / (10000 : ℝ) ^ (((2 * 0 : ℕ) : ℝ) / ((2 : ℕ) : ℝ))) :=
  positional_table_entry_formula 2 1 0 0 (by decide) (by decide) (by decide)

/-- Invariant of the `greedy_decode` loop: starting from a nonempty prefix of
length at most `maxLen`, with strictly more fuel than remaining capacity, the
loop terminates with a result that extends the prefix head, stays within
`maxLen`, stops on `eos` or on reaching `maxLen`, and — if the prefix is
`eos`-free — contains `eos` at most once and only as its last element. -/
lemma greedyStep_spec (nextWord : List ℕ → ℕ) (eos maxLen : ℕ) :
    ∀ fuel cur, cur ≠ [] → cur.length ≤ maxLen → maxLen < cur.length + fuel →
    ∃ r, greedyStep nextWord eos maxLen fuel cur = some r ∧
      r ≠ [] ∧ r.head? = cur.head? ∧ r.length ≤ maxLen ∧
      (r.getLast? = some eos ∨ r.length = maxLen) ∧
      (eos ∉ cur → (r.count eos ≤ 1 ∧ (eos ∈ r → r.getLast? = some eos))) := by
  intro fuel
  induction fuel with
  | zero =>
    intro cur hne hlen hfuel
    omega
  | succ fuel ih =>
    intro cur hne hlen hfuel
    rw [greedyStep]
    by_cases hmax : cur.length = maxLen
    · refine ⟨cur, by simp [hmax], hne, rfl, le_of_eq hmax, Or.inr hmax, ?_⟩
      intro hno
      have h0 : cur.count eos = 0 := List.count_eq_zero.2 hno
      exact ⟨by simp [h0], fun hmem => absurd hmem hno⟩
    · have hlt : cur.length < maxLen := lt_of_le_of_ne hlen hmax
      by_cases heos : nextWord cur = eos
      · refine ⟨cur ++ [nextWord cur], by simp [hmax, heos], by simp, ?_, ?_, ?_, ?_⟩
        · cases cur with
          | nil => exact absurd rfl hne
          | cons a t => simp
        · simpa using hlt
        · left
          simp [heos]
        · intro hno
          constructor
          · rw [List.count_append]
            have h0 : cur.count eos = 0 := List.count_eq_zero.2 hno
            simp [h0, heos]
          · intro _
            simp [heos]
      · have hrec := ih (cur ++ [nextWord cur]) (by simp) (by simp; omega) (by simp; omega)
        obtain ⟨r, hr, hrne, hrhead, hrlen, hrlast, hreos⟩ := hrec
        refine ⟨r, by simp [hmax, heos, hr], hrne, ?_, hrlen, hrlast, ?_⟩
        · rw [hrhead]
          cases cur with
          | nil => exact absurd rfl hne
          | cons a t => simp
        · intro hno
          apply hreos
          intro hc
          rcases List.mem_append.1 hc with h | h
          · exact hno h
          · simp at h
            exact heos h.symm

/-- Claim C8: for every `max_len ≥ 1` and every model (abstracted as the
next-token function), the greedy decoding loop terminates within `max_len`
iterations; it stops on producing `eos` or on the length reaching `max_len`,
and the returned sequence is never longer than `max_len`. -/
theorem greedy_decode_terminates_within_max_len (nextWord : List ℕ → ℕ) (sos eos maxLen : ℕ)
    (hmax : 1 ≤ maxLen) :
    (greedy_decode nextWord sos eos maxLen).isSome = true
    ∧ ((greedy_decode nextWord sos eos maxLen).getD []).length ≤ maxLen
    ∧ (((greedy_decode nextWord sos eos maxLen).getD []).getLast? = some eos
        ∨ ((greedy_decode nextWord sos eos maxLen).getD []).length = maxLen) := by
  obtain ⟨r, hr, _, _, hrlen, hrlast, _⟩ :=
    greedyStep_spec nextWord eos maxLen maxLen [sos] (by simp) (by simpa using hmax)
      (by simp)
  rw [greedy_decode, hr]
  exact ⟨rfl, hrlen, hrlast⟩

/-- Witness for C8 with a model that never emits `eos = 1`, `sos = 0` and
`max_len = 3`: the loop terminates with a sequence of length at most 3. -/
theorem greedy_decode_terminates_witness :
    (greedy_decode (fun _ => 5) 0 1 3).isSome = true
    ∧ ((greedy_decode (fun _ => 5) 0 1 3).getD []).length ≤ 3
    ∧ (((greedy_decode (fun _ => 5) 0 1 3).getD []).getLast? = some 1
        ∨ ((greedy_decode (fun _ => 5) 0 1 3).getD []).length = 3) :=
  greedy_decode_terminates_within_max_len (fun _ => 5) 0 1 3 (by decide)

/-- Claim C10: whenever `sos ≠ eos`, the sequence returned by the greedy
decoding loop begins with `sos`, and `eos` occurs in it at most once and only
as the final element (the loop appends it and immediately stops). -/
theorem greedy_decode_sos_eos_invariant (nextWord : List ℕ → ℕ) (sos eos maxLen : ℕ)
    (r : List ℕ) (hne : sos ≠ eos)
    (hr : greedy_decode nextWord sos eos maxLen = some r) :
    r.head? = some sos ∧ r.count eos ≤ 1 ∧ (eos ∈ r → r.getLast? = some eos) := by
  rcases Nat.eq_zero_or_pos maxLen with h0 | hpos
  · rw [h0] at hr
    simp [greedy_decode, greedyStep] at hr
  · obtain ⟨s, hs, _, hhead, _, _, hcnt⟩ :=
      greedyStep_spec nextWord eos maxLen maxLen [sos] (by simp) (by simpa using hpos)
        (by simp)
    rw [greedy_decode, hs] at hr
    obtain rfl : s = r := Option.some.inj hr
    have hnotin : eos ∉ [sos] := by
      simp only [List.mem_singleton]
      exact fun h => hne h.symm
    obtain ⟨hc1, hc2⟩ := hcnt hnotin
    exact ⟨by rw [hhead]; rfl, hc1, hc2⟩

/-- Witness for C10 with a model that immediately emits `eos = 1` from
`sos = 0`: the returned sequence is `[0, 1]`. -/
theorem greedy_decode_sos_eos_invariant_witness :
    ([0, 1] : List ℕ).head? = some 0 ∧ ([0, 1] : List ℕ).count 1 ≤ 1
    ∧ ((1 : ℕ) ∈ ([0, 1] : List ℕ) → ([0, 1] : List ℕ).getLast? = some 1) :=
  greedy_decode_sos_eos_invariant (fun _ => 1) 0 1 3 [0, 1] (by decide) (by rfl)
